import Mathlib

/-!
Verification of the flow exporter (`mitmproxy/addons/export.py`).

The exporter takes a captured HTTP flow (optional request, optional
response) and renders it as a `curl` command, an `httpie` command, or raw
HTTP/1.x wire bytes, delivering the result to a file or the clipboard.

The embedding below translates `export.py` directly.  Parts of the
repository that `export.py` calls but that are not in the provided sources
(the header multidict, `Request.copy`/`decode`, `strutils`, the HTTP/1
assembler, the sinks) are modelled from the specification; each such
definition carries a doc comment starting with `Modelled from the spec:`.

Bytes are modelled as `List Nat` (each entry < 256 for well-formed data;
nothing below depends on the bound).
-/

deriving instance DecidableEq for Except

namespace MitmExport

abbrev Bytes := List Nat

/-- The single error type of the addon: `exceptions.CommandError(msg)`.
The spec's `NoRequestError`, `NoResponseError`, `NoContentError` and
`UnknownFormatError` are all `CommandError`s with distinct messages. -/
structure CommandError where
  msg : String
deriving DecidableEq, Repr

/-- Modelled from the spec: a header collection is an ordered multimap —
insertion order and duplicate names are preserved, and iteration
(`items(multi=True)`) yields every entry, original name case included, in
original order. -/
structure Headers where
  fields : List (String × String)
deriving DecidableEq, Repr

/-- `headers.items(multi=True)`: every entry in original order. -/
def Headers.items (h : Headers) : List (String × String) :=
  h.fields

/-- ASCII lower-casing of one character (header names are ASCII). -/
def lowerChar (c : Char) : Char :=
  if 65 ≤ c.toNat && c.toNat ≤ 90 then Char.ofNat (c.toNat + 32) else c

/-- ASCII lower-casing of a string, the key-conversion applied to header
names for case-insensitive matching. -/
def lowerStr (s : String) : String :=
  String.mk (s.toList.map lowerChar)

/-- Modelled from the spec: header lookup (`headers.get(key)`) is
case-insensitive over the ordered multimap; the first entry whose name
matches the key case-insensitively supplies the value, `none` if absent. -/
def headersGet (fields : List (String × String)) (key : String) : Option String :=
  (fields.filter (fun kv => lowerStr kv.1 == lowerStr key)).head?.map (fun kv => kv.2)

def Headers.get (h : Headers) (key : String) : Option String :=
  headersGet h.fields key

/-- Modelled from the spec: `headers.pop(key)` deletes every entry whose
name matches `key` case-insensitively (keys are case-insensitive for
lookup purposes; order of the remaining entries is preserved). -/
def Headers.pop (h : Headers) (key : String) : Headers :=
  ⟨h.fields.filter (fun kv => lowerStr kv.1 != lowerStr key)⟩

/-- Whether a header collection contains the authority pseudo-header
`:authority` (matched case-insensitively, as header names are). -/
def containsAuthority (h : Headers) : Bool :=
  h.fields.any (fun kv => lowerStr kv.1 == ":authority")

/-- The `Content-Length` entries of a header collection (name matched
case-insensitively), in order. -/
def clEntries (h : Headers) : List (String × String) :=
  h.fields.filter (fun kv => lowerStr kv.1 == "content-length")

/-- A request: method, target URL, HTTP version, ordered headers and an
optional body.  `content = none` models an absent body, `some []` an empty
one (Python distinguishes `None` from `b""`; both are falsy). -/
structure Request where
  method : String
  url : String
  httpVersion : String
  headers : Headers
  content : Option Bytes
deriving DecidableEq, Repr

/-- A response: status line data, ordered headers, optional body. -/
structure Response where
  httpVersion : String
  statusCode : Nat
  reason : String
  headers : Headers
  content : Option Bytes
deriving DecidableEq, Repr

/-- A flow: an optional request and an optional response. -/
structure Flow where
  request : Option Request
  response : Option Response
deriving DecidableEq, Repr

/-- Modelled from the spec: `decode(strict=False)` is a lenient decode
pass that best-effort reverses transport encoding without ever raising;
header order and duplicate entries are preserved through it and
undecodable content passes through as-is.  No transport encoding is
modelled, so the message is returned unchanged. -/
def Request.decode (r : Request) : Request := r

/-- Modelled from the spec: lenient decode for responses; see
`Request.decode`. -/
def Response.decode (r : Response) : Response := r

/-- Python truthiness of an optional byte string: `None` and `b""` are
falsy, everything else truthy. -/
def contentTruthy : Option Bytes → Bool
  | none => false
  | some b => !b.isEmpty

/-- `cleanup_request` from `export.py`: fail if the flow has no request;
otherwise copy it, decode leniently, drop `Content-Length: 0` on `GET`,
and drop the `:authority` pseudo-header. -/
def cleanup_request (f : Flow) : Except CommandError Request :=
  match f.request with
  | none => .error ⟨"Can't export flow with no request."⟩
  | some req =>
    let request := req.decode
    let request :=
      if request.method == "GET" && request.headers.get "content-length" == some "0" then
        { request with headers := request.headers.pop "content-length" }
      else
        request
    .ok { request with headers := request.headers.pop ":authority" }

/-- `cleanup_response` from `export.py`: fail if the flow has no
response; otherwise copy it and decode leniently. -/
def cleanup_response (f : Flow) : Except CommandError Response :=
  match f.response with
  | none => .error ⟨"Can't export flow with no response."⟩
  | some resp =>
    .ok resp.decode

/-- Modelled from the spec: `strutils.bytes_to_escaped_str(data,
escape_single_quotes)` renders bytes as printable text — printable ASCII
bytes stand for themselves, a backslash is doubled, other bytes become
`\xNN` escape sequences — and, when `escape_single_quotes` is set,
embedded single quotes are neutralized for a single-quote-delimited shell
literal by the close-quote/double-quote technique. -/
def escapeByte (escQuotes : Bool) (n : Nat) : String :=
  if n == 39 then
    (if escQuotes then "'\"'\"'" else "'")
  else if n == 92 then
    "\\\\"
  else if 32 ≤ n && n ≤ 126 then
    String.singleton (Char.ofNat n)
  else
    let hexDigit : Nat → Char := fun d => if d < 10 then Char.ofNat (48 + d) else Char.ofNat (87 + d)
    String.mk [Char.ofNat 92, Char.ofNat 120, hexDigit (n / 16), hexDigit (n % 16)]

def bytes_to_escaped_str (data : Bytes) (escape_single_quotes : Bool) : String :=
  String.join (data.map (escapeByte escape_single_quotes))

/-- The `-H '<name>:<value>' ` flag body emitted by `curl_command` for one
header entry: the name and value are interpolated verbatim between single
quotes (`"-H '%s:%s' " % (k, v)`). -/
def curlHeaderToken (k v : String) : String :=
  "'" ++ k ++ ":" ++ v ++ "'"

/-- `curl_command` from `export.py`. -/
def curl_command (f : Flow) : Except CommandError String :=
  (cleanup_request f).map (fun request =>
    let data := "curl "
    let data := request.headers.items.foldl
      (fun d kv =>
        d ++ (if kv.1 == "accept-encoding" then "--compressed " else "")
          ++ "-H " ++ curlHeaderToken kv.1 kv.2 ++ " ")
      data
    let data := if request.method != "GET" then data ++ "-X " ++ request.method ++ " " else data
    let data := data ++ "'" ++ request.url ++ "'"
    if contentTruthy request.content then
      data ++ " --data-binary '" ++ bytes_to_escaped_str (request.content.getD []) true ++ "'"
    else
      data)

/-- `httpie_command` from `export.py`. -/
def httpie_command (f : Flow) : Except CommandError String :=
  (cleanup_request f).map (fun request =>
    let data := "http " ++ request.method ++ " " ++ request.url
    let data := request.headers.items.foldl
      (fun d kv => d ++ " " ++ curlHeaderToken kv.1 kv.2)
      data
    if contentTruthy request.content then
      data ++ " <<< '" ++ bytes_to_escaped_str (request.content.getD []) true ++ "'"
    else
      data)

/-- Minimal UTF-8 encoding of one character (RFC 3629 byte layout). -/
def utf8Bytes (c : Char) : Bytes :=
  let n := c.toNat
  if n < 128 then [n]
  else if n < 2048 then [192 + n / 64, 128 + n % 64]
  else if n < 65536 then [224 + n / 4096, 128 + (n / 64) % 64, 128 + n % 64]
  else [240 + n / 262144, 128 + (n / 4096) % 64, 128 + (n / 64) % 64, 128 + n % 64]

/-- UTF-8 bytes of a string. -/
def strBytes (s : String) : Bytes :=
  (s.toList.map utf8Bytes).flatten

def CRLF : Bytes := [13, 10]

/-- Modelled from the spec: the HTTP/1 assembler
(`mitmproxy.net.http.http1.assemble`, not under the provided sources)
emits each header as `Name: value` terminated by CRLF, in original order
including duplicates. -/
def assembleHeaders (h : Headers) : Bytes :=
  (h.fields.map (fun kv => strBytes (kv.1 ++ ": " ++ kv.2) ++ CRLF)).flatten

/-- Modelled from the spec: `assemble.assemble_request` emits the start
line `METHOD target-form version`, the CRLF-terminated headers in order,
a blank CRLF line, then the raw body bytes verbatim. -/
def assemble_request (r : Request) : Bytes :=
  strBytes (r.method ++ " " ++ r.url ++ " " ++ r.httpVersion) ++ CRLF
    ++ assembleHeaders r.headers ++ CRLF ++ r.content.getD []

/-- Modelled from the spec: `assemble.assemble_response` emits the status
line `version status reason`, the CRLF-terminated headers in order, a
blank CRLF line, then the raw body bytes verbatim. -/
def assemble_response (r : Response) : Bytes :=
  strBytes (r.httpVersion ++ " " ++ toString r.statusCode ++ " " ++ r.reason) ++ CRLF
    ++ assembleHeaders r.headers ++ CRLF ++ r.content.getD []

/-- `raw_request` from `export.py`. -/
def raw_request (f : Flow) : Except CommandError Bytes :=
  (cleanup_request f).map assemble_request

/-- `raw_response` from `export.py`. -/
def raw_response (f : Flow) : Except CommandError Bytes :=
  (cleanup_response f).map assemble_response

/-- The default `separator` argument of `raw`: the 4 bytes `\r\n\r\n`. -/
def rawSeparator : Bytes := [13, 10, 13, 10]

/-- `raw` from `export.py` (at its default separator): request and
response joined by the separator when both are present, the single
present side alone otherwise, an error when neither is present. -/
def raw (f : Flow) : Except CommandError Bytes :=
  let request_present := f.request.isSome
  let response_present := f.response.isSome
  if !(request_present || response_present) then
    .error ⟨"Can't export flow with no request or response."⟩
  else if request_present && response_present then
    match raw_request f, raw_response f with
    | .ok a, .ok b => .ok (a ++ rawSeparator ++ b)
    | .error e, _ => .error e
    | _, .error e => .error e
  else if !request_present then
    raw_response f
  else
    raw_request f

/-- A formatter result: `raw*` formatters yield bytes, the shell-command
formatters yield text (the spec's tagged binary-vs-text output kind). -/
inductive ExportValue
  | bytes (b : Bytes)
  | text (s : String)
deriving DecidableEq, Repr

/-- The module-level `formats` dict of `export.py`, as a lookup from the
format name to its formatter. -/
def formats (fmt : String) : Option (Flow → Except CommandError ExportValue) :=
  if fmt == "curl" then some (fun f => (curl_command f).map .text)
  else if fmt == "httpie" then some (fun f => (httpie_command f).map .text)
  else if fmt == "raw" then some (fun f => (raw f).map .bytes)
  else if fmt == "raw_request" then some (fun f => (raw_request f).map .bytes)
  else if fmt == "raw_response" then some (fun f => (raw_response f).map .bytes)
  else none

/-- `Export.formats`: the sorted list of registered format names. -/
def Export.formatNames : List String :=
  ["curl", "httpie", "raw", "raw_request", "raw_response"]

/-- The bytes written by `Export.file`: raw bytes as-is, text UTF-8
encoded (`v.encode("utf-8")`). -/
def encodeValue : ExportValue → Bytes
  | .bytes b => b
  | .text s => strBytes s

/-- Modelled from the spec: `strutils.always_str` renders bytes to text
losslessly via a safe textual encoding (each byte as the character of its
code point); text passes through unchanged. -/
def always_str : ExportValue → String
  | .text s => s
  | .bytes b => String.mk (b.map Char.ofNat)

/-- `Export.file` from `export.py`.  The file sink is an external
collaborator, passed as the fallible `write` function; a sink failure is
caught and logged (`ctx.log.error`), so the call returns `.ok` with the
logged lines. Unknown formats and formatter failures raise. -/
def Export.file (write : String → Bytes → Except String Unit)
    (fmt : String) (f : Flow) (path : String) : Except CommandError (List String) :=
  match formats fmt with
  | none => .error ⟨"No such export format: " ++ fmt⟩
  | some func =>
    match func f with
    | .error e => .error e
    | .ok v =>
      match write path (encodeValue v) with
      | .ok _ => .ok []
      | .error e => .ok [e]

/-- `Export.clip` from `export.py`.  The clipboard sink
(`pyperclip.copy`) is an external collaborator, passed as the fallible
`copyText` function; a clipboard failure is caught and logged. -/
def Export.clip (copyText : String → Except String Unit)
    (fmt : String) (f : Flow) : Except CommandError (List String) :=
  match formats fmt with
  | none => .error ⟨"No such export format: " ++ fmt⟩
  | some func =>
    match func f with
    | .error e => .error e
    | .ok v =>
      match copyText (always_str v) with
      | .ok _ => .ok []
      | .error e => .ok [e]

/-! ### A POSIX shell word evaluator

To state "the emitted token, pasted into a POSIX shell, reproduces the
original byte sequence", we evaluate a single shell word under the POSIX
quoting rules: single quotes protect everything up to the next single
quote; double quotes protect everything except `"` and backslash-escapes
of `\`, `"`, `$`, `` ` ``; an unquoted backslash escapes the next
character.  Unquoted whitespace (the word would split) and any `$` or
`` ` `` expansion make the word unusable as a literal, so they fail. -/

inductive QuoteState
  | unq
  | insq
  | indq
deriving DecidableEq, Repr

def shellParseAux : QuoteState → List Char → Option (List Char)
  | .unq, [] => some []
  | .insq, [] => none
  | .indq, [] => none
  | .unq, c :: cs =>
    if c = '\'' then shellParseAux .insq cs
    else if c = '"' then shellParseAux .indq cs
    else if c = '\\' then
      match cs with
      | [] => none
      | d :: ds => (shellParseAux .unq ds).map (fun r => d :: r)
    else if c = ' ' || c = '\t' || c = '\n' || c = '$' || c = '`' then none
    else (shellParseAux .unq cs).map (fun r => c :: r)
  | .insq, c :: cs =>
    if c = '\'' then shellParseAux .unq cs
    else (shellParseAux .insq cs).map (fun r => c :: r)
  | .indq, c :: cs =>
    if c = '"' then shellParseAux .unq cs
    else if c = '\\' then
      match cs with
      | [] => none
      | d :: ds =>
        if d = '"' || d = '\\' || d = '$' || d = '`' then
          (shellParseAux .indq ds).map (fun r => d :: r)
        else
          (shellParseAux .indq ds).map (fun r => c :: d :: r)
    else if c = '$' || c = '`' then none
    else (shellParseAux .indq cs).map (fun r => c :: r)

/-- Evaluate a string as one POSIX shell word: `some w` when the whole
string is a single well-formed word evaluating to `w`, `none` when it is
not usable as a single literal word. -/
def shellParseWord (s : String) : Option String :=
  (shellParseAux .unq s.toList).map (fun cs => String.mk cs)

/-! ### An explicit-store embedding of the sanitizers

`cleanup_request`/`cleanup_response` mutate Python objects in place
(`request.decode(...)`, `request.headers.pop(...)`), so the claim that
the source flow is never mutated is about aliasing.  Here header lists
and bodies live in an explicit store addressed by references; `copy`
allocates fresh references (Modelled from the spec: sanitization
"produces a structurally independent copy — no aliasing of header storage
or body buffers with the original"), and the header pops write through
the copy's reference. -/

structure Store where
  headerHeap : List (List (String × String))
  contentHeap : List (Option Bytes)
deriving DecidableEq, Repr

/-- A request object whose header storage and body buffer are references
into the store. -/
structure RequestObj where
  method : String
  url : String
  httpVersion : String
  headersRef : Nat
  contentRef : Nat
deriving DecidableEq, Repr

/-- A response object with referenced header storage and body buffer. -/
structure ResponseObj where
  httpVersion : String
  statusCode : Nat
  reason : String
  headersRef : Nat
  contentRef : Nat
deriving DecidableEq, Repr

structure FlowObj where
  request : Option RequestObj
  response : Option ResponseObj
deriving DecidableEq, Repr

def readHeaders (st : Store) (r : Nat) : List (String × String) :=
  st.headerHeap.getD r []

def readContent (st : Store) (r : Nat) : Option Bytes :=
  st.contentHeap.getD r none

def allocHeaders (st : Store) (v : List (String × String)) : Nat × Store :=
  (st.headerHeap.length, { st with headerHeap := st.headerHeap ++ [v] })

def allocContent (st : Store) (v : Option Bytes) : Nat × Store :=
  (st.contentHeap.length, { st with contentHeap := st.contentHeap ++ [v] })

def writeHeaders (st : Store) (r : Nat) (v : List (String × String)) : Store :=
  { st with headerHeap := st.headerHeap.set r v }

/-- `request.copy()`: fresh header storage and body buffer holding the
same contents (Modelled from the spec: a structurally independent copy). -/
def RequestObj.copy (r : RequestObj) (st : Store) : RequestObj × Store :=
  let h := allocHeaders st (readHeaders st r.headersRef)
  let c := allocContent h.2 (readContent st r.contentRef)
  ({ r with headersRef := h.1, contentRef := c.1 }, c.2)

/-- `response.copy()`: fresh storage holding the same contents. -/
def ResponseObj.copy (r : ResponseObj) (st : Store) : ResponseObj × Store :=
  let h := allocHeaders st (readHeaders st r.headersRef)
  let c := allocContent h.2 (readContent st r.contentRef)
  ({ r with headersRef := h.1, contentRef := c.1 }, c.2)

/-- In-place `headers.pop(key)` through a reference: deletes every entry
matching `key` case-insensitively from the referenced header list. -/
def popHeaderSt (st : Store) (r : Nat) (key : String) : Store :=
  writeHeaders st r ((readHeaders st r).filter (fun kv => lowerStr kv.1 != lowerStr key))

/-- `cleanup_request` over the explicit store: copy, lenient decode
(a no-op on the store, see `Request.decode`), conditional
`content-length` pop, unconditional `:authority` pop — all through the
copy's references. -/
def cleanup_request_st (st : Store) (f : FlowObj) : Except CommandError (RequestObj × Store) :=
  match f.request with
  | none => .error ⟨"Can't export flow with no request."⟩
  | some req =>
    let p := req.copy st
    let request := p.1
    let st1 := p.2
    let st2 :=
      if request.method == "GET"
          && headersGet (readHeaders st1 request.headersRef) "content-length" == some "0" then
        popHeaderSt st1 request.headersRef "content-length"
      else
        st1
    .ok (request, popHeaderSt st2 request.headersRef ":authority")

/-- `cleanup_response` over the explicit store: copy and lenient decode
(a no-op on the store). -/
def cleanup_response_st (st : Store) (f : FlowObj) : Except CommandError (ResponseObj × Store) :=
  match f.response with
  | none => .error ⟨"Can't export flow with no response."⟩
  | some resp =>
    .ok (resp.copy st)

/-! ## Shared lemmas -/

theorem any_filter_not {α : Type} (l : List α) (p : α → Bool) :
    (l.filter (fun a => !(p a))).any p = false := by
  induction l with
  | nil => rfl
  | cons a tl ih => by_cases h : p a <;> simp [List.filter_cons, h, ih]

theorem filter_filter_not {α : Type} (l : List α) (p : α → Bool) :
    (l.filter (fun a => !(p a))).filter p = [] := by
  induction l with
  | nil => rfl
  | cons a tl ih => by_cases h : p a <;> simp [List.filter_cons, h, ih]

theorem filter_filter_of_imp {α : Type} (l : List α) (p q : α → Bool)
    (h : ∀ a, p a = true → q a = true) :
    (l.filter q).filter p = l.filter p := by
  induction l with
  | nil => rfl
  | cons a tl ih =>
    by_cases hp : p a
    · have hq := h a hp
      simp [List.filter_cons, hp, hq, ih]
    · by_cases hq : q a <;> simp [List.filter_cons, hp, hq, ih]

theorem getD_set_ne {α : Type} (l : List α) (i j : Nat) (v d : α) (h : i ≠ j) :
    (l.set j v).getD i d = l.getD i d := by
  simp [List.getD_eq_getElem?_getD, List.getElem?_set_ne (Ne.symm h)]

theorem getD_append_lt {α : Type} (l l' : List α) (i : Nat) (d : α) (h : i < l.length) :
    (l ++ l').getD i d = l.getD i d := by
  simp [List.getD_eq_getElem?_getD, List.getElem?_append, h]

theorem containsAuthority_pop (h : Headers) :
    containsAuthority (h.pop ":authority") = false := by
  have hk : lowerStr ":authority" = ":authority" := rfl
  simp only [containsAuthority, Headers.pop, hk]
  exact any_filter_not h.fields (fun kv => lowerStr kv.1 == ":authority")

/-! ## C1 — `--compressed` and the worked `curl` example -/

/-- C1 counterexample: on the flow of the claim (request
`GET http://example.com/`, headers `Host: example.com` and
`Accept-Encoding: gzip`, no body) `curl_command` does **not** return the
claimed string: the `accept-encoding` comparison is case-sensitive
(`k == 'accept-encoding'`), so the `Accept-Encoding` header does not
trigger `--compressed`. -/
theorem curl_accept_encoding_case_cex :
    curl_command ⟨some ⟨"GET", "http://example.com/", "HTTP/1.1",
        ⟨[("Host", "example.com"), ("Accept-Encoding", "gzip")]⟩, none⟩, none⟩
      ≠ .ok "curl --compressed -H 'Host:example.com' -H 'Accept-Encoding:gzip' 'http://example.com/'" := by
  decide

/-- C1 amended: `--compressed` is emitted only for a header whose name as
iterated is exactly the lowercase `accept-encoding`, and it precedes that
header's own `-H` flag.  On the claim's flow the output has no
`--compressed`; with the header named in lowercase it does. -/
theorem curl_accept_encoding_case_amended :
    curl_command ⟨some ⟨"GET", "http://example.com/", "HTTP/1.1",
        ⟨[("Host", "example.com"), ("Accept-Encoding", "gzip")]⟩, none⟩, none⟩
      = .ok "curl -H 'Host:example.com' -H 'Accept-Encoding:gzip' 'http://example.com/'" ∧
    curl_command ⟨some ⟨"GET", "http://example.com/", "HTTP/1.1",
        ⟨[("Host", "example.com"), ("accept-encoding", "gzip")]⟩, none⟩, none⟩
      = .ok "curl -H 'Host:example.com' --compressed -H 'accept-encoding:gzip' 'http://example.com/'" := by
  constructor <;> rfl

/-! ## C2 — the `:authority` pseudo-header -/

/-- C2 counterexample: `cleanup_response` does not strip `:authority` —
a response carrying it keeps it after sanitization. -/
theorem cleanup_authority_cex :
    (cleanup_response ⟨none, some ⟨"HTTP/1.1", 200, "OK",
        ⟨[(":authority", "example.com")]⟩, none⟩⟩).map
      (fun r => containsAuthority r.headers) = .ok true := by
  decide

/-- C2 amended: the sanitized request never contains the `:authority`
pseudo-header (`cleanup_request` strips it unconditionally), while
`cleanup_response` leaves the response headers unchanged, so a sanitized
response contains `:authority` exactly when the original did. -/
theorem cleanup_authority_amended :
    (∀ f r, cleanup_request f = .ok r → containsAuthority r.headers = false) ∧
    (∀ f resp r, f.response = some resp → cleanup_response f = .ok r →
      r.headers = resp.headers) := by
  constructor
  · intro f r h
    match hf : f.request with
    | none => simp [cleanup_request, hf] at h
    | some req =>
      simp only [cleanup_request, hf, Request.decode] at h
      injection h with h
      subst h
      exact containsAuthority_pop _
  · intro f resp r hresp h
    simp only [cleanup_response, hresp, Response.decode] at h
    injection h with h
    subst h
    rfl

/-- Witness for `cleanup_authority_amended` at concrete flows. -/
theorem cleanup_authority_amended_witness :
    containsAuthority (Headers.mk [("Host", "e")]) = false ∧
    (Response.mk "HTTP/1.1" 200 "OK" ⟨[(":authority", "x")]⟩ none).headers
      = Headers.mk [(":authority", "x")] :=
  ⟨cleanup_authority_amended.1
      ⟨some ⟨"GET", "u", "HTTP/1.1", ⟨[(":authority", "x"), ("Host", "e")]⟩, none⟩, none⟩
      ⟨"GET", "u", "HTTP/1.1", ⟨[("Host", "e")]⟩, none⟩ (by decide),
   cleanup_authority_amended.2
      ⟨none, some ⟨"HTTP/1.1", 200, "OK", ⟨[(":authority", "x")]⟩, none⟩⟩
      ⟨"HTTP/1.1", 200, "OK", ⟨[(":authority", "x")]⟩, none⟩
      ⟨"HTTP/1.1", 200, "OK", ⟨[(":authority", "x")]⟩, none⟩ rfl (by decide)⟩

/-! ## C3 — single-quote safety of the emitted shell tokens -/

theorem shellParseAux_insq_append (xs rest : List Char) (h : ∀ c ∈ xs, c ≠ '\'') :
    shellParseAux .insq (xs ++ '\'' :: rest)
      = (shellParseAux .unq rest).map (fun r => xs ++ r) := by
  induction xs with
  | nil =>
    simp [shellParseAux]
  | cons c cs ih =>
    have hc : c ≠ '\'' := h c (List.mem_cons_self c cs)
    have htl : ∀ d ∈ cs, d ≠ '\'' := fun d hd => h d (List.mem_cons_of_mem c hd)
    simp [shellParseAux, hc, ih htl, Option.map_map]
    rfl

theorem shellParse_single_quoted (xs : List Char) (h : ∀ c ∈ xs, c ≠ '\'') :
    shellParseAux .unq ('\'' :: (xs ++ ['\''])) = some xs := by
  have hstep : shellParseAux .unq ('\'' :: (xs ++ ['\'']))
      = shellParseAux .insq (xs ++ ['\'']) := by
    rw [shellParseAux.eq_def]
    simp
  rw [hstep, shellParseAux_insq_append xs [] h]
  simp [shellParseAux]

/-- C3 counterexample: a header value containing a single quote is
interpolated verbatim into the `-H '<name>:<value>'` token, and the
resulting token is not a well-formed POSIX shell word at all (its final
quote is unterminated), so pasting it into a shell cannot reproduce the
original bytes. -/
theorem shell_quote_cex :
    curl_command ⟨some ⟨"GET", "http://example.com/", "HTTP/1.1",
        ⟨[("X", "a'b")]⟩, none⟩, none⟩
      = .ok "curl -H 'X:a'b' 'http://example.com/'" ∧
    shellParseWord (curlHeaderToken "X" "a'b") ≠ some "X:a'b" := by
  constructor
  · rfl
  · decide

/-- C3 amended: the escaped body does neutralize single quotes (shown on
the spec's own `a'b` example), but header names and values are emitted
verbatim, so their `-H` token round-trips through a POSIX shell only when
name and value contain no single quote. -/
theorem shell_quote_amended :
    (∀ k v : String, (∀ c ∈ k.toList, c ≠ '\'') → (∀ c ∈ v.toList, c ≠ '\'') →
        shellParseWord (curlHeaderToken k v) = some (k ++ ":" ++ v)) ∧
    shellParseWord ("'" ++ bytes_to_escaped_str [97, 39, 98] true ++ "'") = some "a'b" := by
  constructor
  · intro k v hk hv
    have hmid : ∀ c ∈ k.data ++ ':' :: v.data, c ≠ '\'' := by
      intro c hc
      rcases List.mem_append.mp hc with h1 | h2
      · exact hk c h1
      · rcases List.mem_cons.mp h2 with h3 | h4
        · intro he
          rw [h3] at he
          cases he
        · exact hv c h4
    have hsplit : (curlHeaderToken k v).toList
        = '\'' :: ((k.data ++ ':' :: v.data) ++ ['\'']) := by
      simp [curlHeaderToken, String.toList]
    have hmk : String.mk (k.data ++ ':' :: v.data) = k ++ ":" ++ v := by
      apply String.ext
      show k.data ++ ':' :: v.data = (k.data ++ [':']) ++ v.data
      rw [List.append_assoc]
      rfl
    unfold shellParseWord
    rw [hsplit, shellParse_single_quoted _ hmid]
    show some (String.mk (k.data ++ ':' :: v.data)) = some (k ++ ":" ++ v)
    exact congrArg some hmk
  · decide

/-- Witness for `shell_quote_amended` at a concrete quote-free header. -/
theorem shell_quote_amended_witness :
    (∀ c ∈ "Host".toList, c ≠ '\'') ∧ (∀ c ∈ "example.com".toList, c ≠ '\'') ∧
    shellParseWord (curlHeaderToken "Host" "example.com")
      = some ("Host" ++ ":" ++ "example.com") :=
  ⟨by decide, by decide,
   shell_quote_amended.1 "Host" "example.com" (by decide) (by decide)⟩

/-! ## C4 — combined raw export -/

/-- C4: with both sides present, `raw` is exactly the assembled sanitized
request, the 4-byte `\r\n\r\n` separator, and the assembled sanitized
response; with one side present, it is that side's assembly alone. -/
theorem raw_separator_spec (f : Flow) :
    (∀ req resp rq rs, f.request = some req → f.response = some resp →
        cleanup_request f = .ok rq → cleanup_response f = .ok rs →
        raw f = .ok (assemble_request rq ++ rawSeparator ++ assemble_response rs)) ∧
    (∀ req rq, f.request = some req → f.response = none →
        cleanup_request f = .ok rq → raw f = .ok (assemble_request rq)) ∧
    (∀ resp rs, f.request = none → f.response = some resp →
        cleanup_response f = .ok rs → raw f = .ok (assemble_response rs)) := by
  refine ⟨?_, ?_, ?_⟩
  · intro req resp rq rs h1 h2 h3 h4
    simp [raw, h1, h2, raw_request, raw_response, h3, h4, Except.map]
  · intro req rq h1 h2 h3
    simp [raw, h1, h2, raw_request, h3, Except.map]
  · intro resp rs h1 h2 h3
    simp [raw, h1, h2, raw_response, h3, Except.map]

/-- Witness for `raw_separator_spec` on a concrete two-sided flow. -/
theorem raw_separator_spec_witness :
    raw ⟨some ⟨"GET", "http://e/", "HTTP/1.1", ⟨[("Host", "e")]⟩, some [104, 105]⟩,
         some ⟨"HTTP/1.1", 200, "OK", ⟨[("Server", "x")]⟩, some [111, 107]⟩⟩
      = .ok (assemble_request ⟨"GET", "http://e/", "HTTP/1.1", ⟨[("Host", "e")]⟩, some [104, 105]⟩
          ++ rawSeparator
          ++ assemble_response ⟨"HTTP/1.1", 200, "OK", ⟨[("Server", "x")]⟩, some [111, 107]⟩) :=
  (raw_separator_spec _).1
    ⟨"GET", "http://e/", "HTTP/1.1", ⟨[("Host", "e")]⟩, some [104, 105]⟩
    ⟨"HTTP/1.1", 200, "OK", ⟨[("Server", "x")]⟩, some [111, 107]⟩
    ⟨"GET", "http://e/", "HTTP/1.1", ⟨[("Host", "e")]⟩, some [104, 105]⟩
    ⟨"HTTP/1.1", 200, "OK", ⟨[("Server", "x")]⟩, some [111, 107]⟩
    rfl rfl (by decide) (by decide)

/-! ## C5 — `Content-Length: 0` removal on `GET` -/

/-- C5: a `GET` request carrying `Content-Length` with value `"0"` loses
every `Content-Length` entry during sanitization; in every other case the
`Content-Length` entries are untouched. -/
theorem cleanup_content_length_spec (f : Flow) (req : Request) (r : Request)
    (hreq : f.request = some req) (hr : cleanup_request f = .ok r) :
    ((req.method = "GET" ∧ req.headers.get "content-length" = some "0") →
        clEntries r.headers = []) ∧
    (¬(req.method = "GET" ∧ req.headers.get "content-length" = some "0") →
        clEntries r.headers = clEntries req.headers) := by
  have himp : ∀ a : String × String,
      (lowerStr a.1 == "content-length") = true →
      (lowerStr a.1 != lowerStr ":authority") = true := by
    intro a ha
    have : lowerStr a.1 = "content-length" := by
      simpa using ha
    simp [this]
    decide
  simp only [cleanup_request, hreq, Request.decode] at hr
  cases hcb : (req.method == "GET" && req.headers.get "content-length" == some "0") with
  | true =>
    rw [hcb] at hr
    simp only [eq_self_iff_true, if_true] at hr
    injection hr with hr
    subst hr
    constructor
    · intro _
      simp only [clEntries, Headers.pop]
      rw [filter_filter_of_imp _ _ _ himp]
      exact filter_filter_not _ _
    · intro hneg
      exfalso
      apply hneg
      constructor
      · have := (Bool.and_eq_true _ _).mp hcb
        exact beq_iff_eq.mp this.1
      · have := (Bool.and_eq_true _ _).mp hcb
        exact beq_iff_eq.mp this.2
  | false =>
    rw [hcb] at hr
    simp only [Bool.false_eq_true, if_false] at hr
    injection hr with hr
    subst hr
    constructor
    · intro hpos
      exfalso
      have : (req.method == "GET" && req.headers.get "content-length" == some "0") = true := by
        simp [hpos.1, hpos.2]
      rw [this] at hcb
      cases hcb
    · intro _
      simp only [clEntries, Headers.pop]
      exact filter_filter_of_imp _ _ _ himp

/-- Witness for `cleanup_content_length_spec` on a concrete `GET` flow
with `Content-Length: 0`. -/
theorem cleanup_content_length_spec_witness :
    ((Request.mk "GET" "http://e/" "HTTP/1.1"
        ⟨[("Content-Length", "0"), ("Host", "e")]⟩ (some [])).method = "GET" ∧
      (Request.mk "GET" "http://e/" "HTTP/1.1"
        ⟨[("Content-Length", "0"), ("Host", "e")]⟩ (some [])).headers.get "content-length"
        = some "0") ∧
    clEntries (Request.mk "GET" "http://e/" "HTTP/1.1"
        ⟨[("Host", "e")]⟩ (some [])).headers = [] := by
  refine ⟨⟨rfl, by decide⟩, ?_⟩
  exact (cleanup_content_length_spec
    ⟨some ⟨"GET", "http://e/", "HTTP/1.1", ⟨[("Content-Length", "0"), ("Host", "e")]⟩, some []⟩, none⟩
    ⟨"GET", "http://e/", "HTTP/1.1", ⟨[("Content-Length", "0"), ("Host", "e")]⟩, some []⟩
    ⟨"GET", "http://e/", "HTTP/1.1", ⟨[("Host", "e")]⟩, some []⟩
    rfl (by decide)).1 ⟨rfl, by decide⟩

/-! ## C6 — errors for missing request/response -/

/-- C6: a flow with no request makes `curl_command` fail with the
no-request `CommandError`, and a flow with neither side makes `raw` fail
with the no-content `CommandError`. -/
theorem missing_sides_errors (f : Flow) :
    (f.request = none →
      curl_command f = .error ⟨"Can't export flow with no request."⟩) ∧
    (f.request = none → f.response = none →
      raw f = .error ⟨"Can't export flow with no request or response."⟩) := by
  constructor
  · intro h
    simp [curl_command, cleanup_request, h, Except.map]
  · intro h1 h2
    simp [raw, h1, h2]

/-- Witness for `missing_sides_errors` at the empty flow. -/
theorem missing_sides_errors_witness :
    curl_command ⟨none, none⟩ = .error ⟨"Can't export flow with no request."⟩ ∧
    raw ⟨none, none⟩ = .error ⟨"Can't export flow with no request or response."⟩ :=
  ⟨(missing_sides_errors ⟨none, none⟩).1 rfl,
   (missing_sides_errors ⟨none, none⟩).2 rfl rfl⟩

/-! ## C7 — unknown format names -/

/-- C7: for any format name outside the registry, both `Export.file` and
`Export.clip` fail with the unknown-format `CommandError`, for every
flow, path and sink — so before any formatting or sink access. -/
theorem unknown_format_errors (fmt : String) (hfmt : fmt ∉ Export.formatNames) :
    ∀ (write : String → Bytes → Except String Unit)
      (copyText : String → Except String Unit) (f : Flow) (path : String),
      Export.file write fmt f path = .error ⟨"No such export format: " ++ fmt⟩ ∧
      Export.clip copyText fmt f = .error ⟨"No such export format: " ++ fmt⟩ := by
  intro write copyText f path
  have h1 : ¬(fmt == "curl") = true := by
    intro h
    exact hfmt (by simp [Export.formatNames, beq_iff_eq.mp h])
  have h2 : ¬(fmt == "httpie") = true := by
    intro h
    exact hfmt (by simp [Export.formatNames, beq_iff_eq.mp h])
  have h3 : ¬(fmt == "raw") = true := by
    intro h
    exact hfmt (by simp [Export.formatNames, beq_iff_eq.mp h])
  have h4 : ¬(fmt == "raw_request") = true := by
    intro h
    exact hfmt (by simp [Export.formatNames, beq_iff_eq.mp h])
  have h5 : ¬(fmt == "raw_response") = true := by
    intro h
    exact hfmt (by simp [Export.formatNames, beq_iff_eq.mp h])
  have hnone : formats fmt = none := by
    simp [formats, h1, h2, h3, h4, h5]
  constructor
  · simp [Export.file, hnone]
  · simp [Export.clip, hnone]

/-- Witness for `unknown_format_errors` at the format name `"har"`. -/
theorem unknown_format_errors_witness :
    "har" ∉ Export.formatNames ∧
    (Export.file (fun _ _ => Except.ok ()) "har" ⟨none, none⟩ "out.txt"
        = .error ⟨"No such export format: har"⟩ ∧
      Export.clip (fun _ => Except.ok ()) "har" ⟨none, none⟩
        = .error ⟨"No such export format: har"⟩) :=
  ⟨by decide,
   unknown_format_errors "har" (by decide)
     (fun _ _ => Except.ok ()) (fun _ => Except.ok ()) ⟨none, none⟩ "out.txt"⟩

/-! ## C8 — sink failures are caught and logged, not propagated -/

/-- C8: once the format is valid and formatting succeeded, a failing sink
(file write or clipboard copy) is caught: the error text is logged and
the call returns normally with `.ok`. -/
theorem sink_failure_nonfatal (fmt : String) (func : Flow → Except CommandError ExportValue)
    (f : Flow) (v : ExportValue)
    (hfmt : formats fmt = some func) (hv : func f = .ok v) :
    (∀ (write : String → Bytes → Except String Unit) (path : String) (e : String),
        write path (encodeValue v) = Except.error e →
        Export.file write fmt f path = .ok [e]) ∧
    (∀ (copyText : String → Except String Unit) (e : String),
        copyText (always_str v) = Except.error e →
        Export.clip copyText fmt f = .ok [e]) := by
  constructor
  · intro write path e hw
    simp [Export.file, hfmt, hv, hw]
  · intro copyText e hc
    simp [Export.clip, hfmt, hv, hc]

/-- Witness for `sink_failure_nonfatal`: failing file and clipboard sinks
on a valid `curl` export. -/
theorem sink_failure_nonfatal_witness :
    Export.file (fun _ _ => Except.error "denied") "curl"
        ⟨some ⟨"GET", "http://e/", "HTTP/1.1", ⟨[]⟩, none⟩, none⟩ "out.txt"
      = .ok ["denied"] ∧
    Export.clip (fun _ => Except.error "nocb") "curl"
        ⟨some ⟨"GET", "http://e/", "HTTP/1.1", ⟨[]⟩, none⟩, none⟩
      = .ok ["nocb"] :=
  ⟨(sink_failure_nonfatal "curl" (fun fl => (curl_command fl).map .text)
      ⟨some ⟨"GET", "http://e/", "HTTP/1.1", ⟨[]⟩, none⟩, none⟩
      (.text "curl 'http://e/'") rfl rfl).1
      (fun _ _ => Except.error "denied") "out.txt" "denied" rfl,
   (sink_failure_nonfatal "curl" (fun fl => (curl_command fl).map .text)
      ⟨some ⟨"GET", "http://e/", "HTTP/1.1", ⟨[]⟩, none⟩, none⟩
      (.text "curl 'http://e/'") rfl rfl).2
      (fun _ => Except.error "nocb") "nocb" rfl⟩

/-! ## C10 — an empty body behaves exactly like an absent body -/

/-- C10: when the request body is the empty byte string, `curl_command`
and `httpie_command` produce exactly what they produce for the same
request with no body at all (the body test is Python truthiness), so no
`--data-binary` and no `<<<` clause is emitted. -/
theorem empty_body_no_clause (f : Flow) (req : Request)
    (hreq : f.request = some req) (hc : req.content = some []) :
    curl_command f = curl_command ⟨some { req with content := none }, f.response⟩ ∧
    httpie_command f = httpie_command ⟨some { req with content := none }, f.response⟩ := by
  obtain ⟨m, u, hv, hs, c⟩ := req
  simp only at hc
  subst hc
  constructor
  · simp only [curl_command, cleanup_request, hreq, Request.decode]
    cases hcb : (m == "GET" && Headers.get hs "content-length" == some "0") <;>
      simp [hcb, contentTruthy, Except.map, List.isEmpty]
  · simp only [httpie_command, cleanup_request, hreq, Request.decode]
    cases hcb : (m == "GET" && Headers.get hs "content-length" == some "0") <;>
      simp [hcb, contentTruthy, Except.map, List.isEmpty]

/-- Witness for `empty_body_no_clause` on a concrete empty-bodied flow. -/
theorem empty_body_no_clause_witness :
    curl_command ⟨some ⟨"GET", "http://e/", "HTTP/1.1", ⟨[("Host", "e")]⟩, some []⟩, none⟩
      = curl_command ⟨some ⟨"GET", "http://e/", "HTTP/1.1", ⟨[("Host", "e")]⟩, none⟩, none⟩ ∧
    httpie_command ⟨some ⟨"GET", "http://e/", "HTTP/1.1", ⟨[("Host", "e")]⟩, some []⟩, none⟩
      = httpie_command ⟨some ⟨"GET", "http://e/", "HTTP/1.1", ⟨[("Host", "e")]⟩, none⟩, none⟩ :=
  empty_body_no_clause
    ⟨some ⟨"GET", "http://e/", "HTTP/1.1", ⟨[("Host", "e")]⟩, some []⟩, none⟩
    ⟨"GET", "http://e/", "HTTP/1.1", ⟨[("Host", "e")]⟩, some []⟩ rfl rfl

/-! ## C9 — sanitization never mutates the source flow -/

/-- C9: over the explicit store, `cleanup_request_st` and
`cleanup_response_st` leave the source message's header storage and body
buffer untouched: every mutation (the header pops) goes through the fresh
references allocated by `copy`.  The value fields (`method`, `url`,
status data) live in the immutable objects themselves and cannot change. -/
theorem cleanup_preserves_source (st : Store) (f : FlowObj) :
    (∀ req r st2, f.request = some req →
        req.headersRef < st.headerHeap.length →
        req.contentRef < st.contentHeap.length →
        cleanup_request_st st f = .ok (r, st2) →
        readHeaders st2 req.headersRef = readHeaders st req.headersRef ∧
        readContent st2 req.contentRef = readContent st req.contentRef) ∧
    (∀ resp r st2, f.response = some resp →
        resp.headersRef < st.headerHeap.length →
        resp.contentRef < st.contentHeap.length →
        cleanup_response_st st f = .ok (r, st2) →
        readHeaders st2 resp.headersRef = readHeaders st resp.headersRef ∧
        readContent st2 resp.contentRef = readContent st resp.contentRef) := by
  constructor
  · intro req r st2 hreq hh hc heq
    have hne : req.headersRef ≠ st.headerHeap.length := Nat.ne_of_lt hh
    simp only [cleanup_request_st, hreq, RequestObj.copy, allocHeaders, allocContent] at heq
    injection heq with heq
    injection heq with h1 h2
    subst h1
    subst h2
    constructor
    · simp only [popHeaderSt, writeHeaders, readHeaders]
      rw [getD_set_ne _ _ _ _ _ hne]
      split
      · rw [getD_set_ne _ _ _ _ _ hne, getD_append_lt _ _ _ _ hh]
      · rw [getD_append_lt _ _ _ _ hh]
    · simp only [popHeaderSt, writeHeaders, readHeaders, readContent]
      split
      · rw [getD_append_lt _ _ _ _ hc]
      · rw [getD_append_lt _ _ _ _ hc]
  · intro resp r st2 hresp hh hc heq
    simp only [cleanup_response_st, hresp, ResponseObj.copy, allocHeaders, allocContent] at heq
    injection heq with heq
    injection heq with h1 h2
    subst h1
    subst h2
    constructor
    · simp only [readHeaders]
      rw [getD_append_lt _ _ _ _ hh]
    · simp only [readContent]
      rw [getD_append_lt _ _ _ _ hc]

/-- Witness for `cleanup_preserves_source` on a concrete one-request and
one-response store. -/
theorem cleanup_preserves_source_witness :
    (readHeaders ⟨[[("Content-Length", "0")], []], [some [104], some [104]]⟩ 0
        = readHeaders ⟨[[("Content-Length", "0")]], [some [104]]⟩ 0 ∧
      readContent ⟨[[("Content-Length", "0")], []], [some [104], some [104]]⟩ 0
        = readContent ⟨[[("Content-Length", "0")]], [some [104]]⟩ 0) ∧
    (readHeaders ⟨[[("Server", "x")], [("Server", "x")]], [some [104], some [104]]⟩ 0
        = readHeaders ⟨[[("Server", "x")]], [some [104]]⟩ 0 ∧
      readContent ⟨[[("Server", "x")], [("Server", "x")]], [some [104], some [104]]⟩ 0
        = readContent ⟨[[("Server", "x")]], [some [104]]⟩ 0) :=
  ⟨(cleanup_preserves_source ⟨[[("Content-Length", "0")]], [some [104]]⟩
      ⟨some ⟨"GET", "u", "HTTP/1.1", 0, 0⟩, none⟩).1
      ⟨"GET", "u", "HTTP/1.1", 0, 0⟩ ⟨"GET", "u", "HTTP/1.1", 1, 1⟩
      ⟨[[("Content-Length", "0")], []], [some [104], some [104]]⟩
      rfl (by decide) (by decide) (by decide),
   (cleanup_preserves_source ⟨[[("Server", "x")]], [some [104]]⟩
      ⟨none, some ⟨"HTTP/1.1", 200, "OK", 0, 0⟩⟩).2
      ⟨"HTTP/1.1", 200, "OK", 0, 0⟩ ⟨"HTTP/1.1", 200, "OK", 1, 1⟩
      ⟨[[("Server", "x")], [("Server", "x")]], [some [104], some [104]]⟩
      rfl (by decide) (by decide) (by decide)⟩

end MitmExport
